import Mathlib

/-!
# Verification of the Bulk Image Formatter

Shallow embedding of `001_Bulk_Image_Formatter` (functions `process_image`
and `batch_process_images`) together with the Python path helpers they use
(`os.path.basename`, `os.path.splitext`, `os.path.join`, `str.endswith`).

External collaborators (the PIL image codec, the filesystem) are modelled
as explicit capability records whose operations may fail (`Except`), and
the observable behaviour of a run (printed lines, directory creations,
per-file transform invocations) is recorded as a trace of events.
-/

set_option autoImplicit false

namespace BulkImageFormatter

/-- An opened image resource: only its pixel dimensions matter here. -/
structure Image where
  width : Nat
  height : Nat
  deriving DecidableEq, Repr

/-- A crop box `(left, top, right, bottom)` as passed to `Image.crop`. -/
structure CropBox where
  left : Nat
  top : Nat
  right : Nat
  bottom : Nat
  deriving DecidableEq, Repr

/-- The centred-square crop-box computation of `process_image`.
Python's `//` on the non-negative operands used here agrees with `Nat`
division (each subtraction is taken in the branch where it cannot go
negative, so `Nat` subtraction is exact). -/
def cropBox (width height : Nat) : CropBox :=
  if width > height then
    -- Landscape image
    let left := (width - height) / 2
    { left := left, top := 0, right := left + height, bottom := height }
  else
    -- Portrait or square image
    let top := (height - width) / 2
    { left := 0, top := top, right := width, bottom := top + width }

/-- The crop box of an opened image, a function of its size attributes only. -/
def cropBoxOf (img : Image) : CropBox :=
  cropBox img.width img.height

/-! ## Python string/path helpers -/

/-- Python `s.endswith(suffixStr)`: case-sensitive suffix comparison. -/
def pyEndsWith (s suffixStr : String) : Bool :=
  suffixStr.toList.isSuffixOf s.toList

/-- Python `s.startswith(prefixStr)`. -/
def pyStartsWith (s prefixStr : String) : Bool :=
  prefixStr.toList.isPrefixOf s.toList

/-- Python `p.rfind(c)` on a string viewed as a list of characters:
the highest index at which `c` occurs, or `-1` if it does not occur. -/
def rfindAux (c : Char) : List Char → Nat → Int → Int
  | [], _, acc => acc
  | x :: xs, i, acc => rfindAux c xs (i + 1) (if x = c then (i : Int) else acc)

/-- Python `p.rfind(c)`. -/
def rfind (p : List Char) (c : Char) : Int :=
  rfindAux c p 0 (-1)

/-- `os.path.basename(p)` (POSIX): everything after the last `/`. -/
def basenameCL (p : List Char) : List Char :=
  p.drop (rfind p '/' + 1).toNat

/-- Whether every character of the list is a dot.  Used to embed the
leading-dot scan of CPython's `splitext` loop: the loop splits exactly
when the part of the basename strictly before the last dot contains a
non-dot character. -/
def allDots : List Char → Bool
  | [] => true
  | c :: cs => c = '.' && allDots cs

/-- `os.path.splitext(p)` (CPython `genericpath._splitext` with `sep = '/'`,
`extsep = '.'`): split at the last dot after the last separator, except
that a basename consisting only of leading dots up to that dot (such as
`.bashrc`) is not split. -/
def splitextCL (p : List Char) : List Char × List Char :=
  let sepIndex := rfind p '/'
  let dotIndex := rfind p '.'
  if sepIndex < dotIndex then
    let fnameStart := (sepIndex + 1).toNat
    let dI := dotIndex.toNat
    if allDots ((p.take dI).drop fnameStart) then (p, [])
    else (p.take dI, p.drop dI)
  else (p, [])

/-- `os.path.basename` on `String`. -/
def basename (p : String) : String :=
  String.mk (basenameCL p.toList)

/-- `os.path.splitext` on `String`. -/
def splitext (p : String) : String × String :=
  let r := splitextCL p.toList
  (String.mk r.1, String.mk r.2)

/-- `os.path.join(a, b)` (POSIX, two arguments). -/
def pathJoin (a b : String) : String :=
  if pyStartsWith b "/" then b
  else if a = "" || pyEndsWith a "/" then a ++ b
  else a ++ "/" ++ b

/-! ## File selection -/

/-- The extension tuple `('.jpg', '.jpeg', '.JPG', '.JPEG')` of
`batch_process_images`. -/
def jpg_extensions : List String :=
  [".jpg", ".jpeg", ".JPG", ".JPEG"]

/-- `f.endswith(jpg_extensions)`: Python `endswith` on a tuple is true iff
`f` ends with one of its members. -/
def isJpgFile (f : String) : Bool :=
  jpg_extensions.any (fun ext => pyEndsWith f ext)

/-! ## The image codec capability (PIL) -/

/-- The PIL operations used by `process_image`, as an external capability:
each may fail with an exception message. -/
structure Codec where
  openImage : String → Except String Image
  crop : Image → CropBox → Except String Image
  resize : Image → Nat × Nat → Except String Image
  save : Image → String → Except String Unit

/-- The body of the `try` block of `process_image`: the open/crop/resize/
save chain, stopping at the first raised exception.  On success it returns
the pair `(filename, output_filename)` used by the progress line. -/
def processAttempt (c : Codec) (input_path output_folder : String)
    (size : Nat × Nat) : Except String (String × String) := do
  let img ← c.openImage input_path
  let width := img.width
  let height := img.height
  let box := cropBox width height
  let img_cropped ← c.crop img box
  let img_resized ← c.resize img_cropped size
  let filename := basename input_path
  let name_without_ext := (splitext filename).1
  let output_filename := name_without_ext ++ ".png"
  let output_path := pathJoin output_folder output_filename
  c.save img_resized output_path
  pure (filename, output_filename)

/-- `process_image`: runs the attempt, catches any exception, and returns
the success flag together with the lines it printed. -/
def process_image (c : Codec) (input_path output_folder : String)
    (size : Nat × Nat) : Bool × List String :=
  match processAttempt c input_path output_folder size with
  | .ok (filename, output_filename) =>
      (true, [s!"Processed: {filename} → {output_filename}"])
  | .error e =>
      (false, [s!"Error processing {input_path}: {e}"])

/-- The output filename `process_image` derives for an input path:
base name, extension stripped by `splitext`, `.png` appended. -/
def output_filename (input_path : String) : String :=
  (splitext (basename input_path)).1 ++ ".png"

/-! ## BatchRunner -/

/-- An observable step of a batch run. -/
inductive Event where
  /-- `os.makedirs(dir)` was called. -/
  | mkdir (dir : String)
  /-- A line was printed. -/
  | msg (s : String)
  /-- `process_image` was invoked on this input path. -/
  | transformCall (input_path : String)
  deriving DecidableEq, Repr

/-- Whether an event is an invocation of `process_image`. -/
def Event.isTransformCall : Event → Bool
  | .transformCall _ => true
  | _ => false

/-- The `for jpg_file in jpg_files` loop of `batch_process_images`:
returns the events it emits (one `transformCall` plus the printed lines
per file, in order) and the final value of the `successful` counter. -/
def processLoop (c : Codec) (input_folder output_folder : String)
    (size : Nat × Nat) : List String → List Event × Nat
  | [] => ([], 0)
  | jpg_file :: rest =>
      let input_path := pathJoin input_folder jpg_file
      let r := process_image c input_path output_folder size
      let rest_r := processLoop c input_folder output_folder size rest
      (Event.transformCall input_path :: (r.2.map Event.msg ++ rest_r.1),
       (if r.1 then 1 else 0) + rest_r.2)

/-- `batch_process_images` after the output directory is ensured:
filter the entries, handle the empty case, otherwise run the loop and
print the summary.  `pre` is the trace of the directory-creation step. -/
def batchAfterMkdir (c : Codec) (entries : List String)
    (input_folder output_folder : String) (size : Nat × Nat)
    (pre : List Event) : Except String Unit × List Event :=
  let jpg_files := entries.filter isJpgFile
  if jpg_files.isEmpty then
    (.ok (), pre ++ [.msg s!"No JPG files found in {input_folder}"])
  else
    let r := processLoop c input_folder output_folder size jpg_files
    (.ok (),
     pre ++ [.msg s!"Found {jpg_files.length} JPG files to process..."]
         ++ r.1
         ++ [.msg s!"Processing complete. {r.2} of {jpg_files.length} images converted successfully."])

/-- `batch_process_images`.  The filesystem is supplied explicitly:
`output_exists` is `os.path.exists(output_folder)`, `mkdirResult` what
`os.makedirs(output_folder)` would do (it is consulted only when the
folder does not exist), and `entries` is `os.listdir(input_folder)`.
The first component is the function's outcome (`error e` meaning an
uncaught exception propagated to the caller); the second is the trace of
events up to that point. -/
def batch_process_images (c : Codec) (mkdirResult : Except String Unit)
    (output_exists : Bool) (entries : List String)
    (input_folder output_folder : String) (size : Nat × Nat) :
    Except String Unit × List Event :=
  if output_exists then
    batchAfterMkdir c entries input_folder output_folder size []
  else
    match mkdirResult with
    | .error e => (.error e, [.mkdir output_folder])
    | .ok _ =>
        batchAfterMkdir c entries input_folder output_folder size
          [.mkdir output_folder,
           .msg s!"Created output directory: {output_folder}"]

/-! ## Concrete codecs for witnesses -/

/-- A codec on which every operation succeeds; `openImage` yields an
800×600 image, `crop` returns the box's extent, `resize` the target. -/
def okCodec : Codec where
  openImage := fun _ => .ok { width := 800, height := 600 }
  crop := fun _ box => .ok { width := box.right - box.left, height := box.bottom - box.top }
  resize := fun _ size => .ok { width := size.1, height := size.2 }
  save := fun _ _ => .ok ()

/-- A codec whose `openImage` always raises, as on a corrupt file. -/
def failCodec : Codec where
  openImage := fun _ => .error "cannot identify image file"
  crop := fun img _ => .ok img
  resize := fun img _ => .ok img
  save := fun _ _ => .ok ()

/-- The input paths handed to `process_image`, in order, in a trace. -/
def transformCalls (t : List Event) : List String :=
  t.filterMap fun e =>
    match e with
    | .transformCall p => some p
    | _ => none

/-- A codec for which exactly the file `in/bad.jpg` is corrupt. -/
def mixedCodec : Codec where
  openImage := fun p =>
    if p = "in/bad.jpg" then .error "corrupt" else .ok { width := 800, height := 600 }
  crop := fun _ box => .ok { width := box.right - box.left, height := box.bottom - box.top }
  resize := fun _ size => .ok { width := size.1, height := size.2 }
  save := fun _ _ => .ok ()

/-! ## Helper lemmas about traces and the processing loop -/

theorem except_bind_ok {α β ε : Type} (a : α) (f : α → Except ε β) :
    (Except.ok a : Except ε α) >>= f = f a := rfl

theorem except_bind_error {α β ε : Type} (e : ε) (f : α → Except ε β) :
    (Except.error e : Except ε α) >>= f = Except.error e := rfl

theorem except_map_ok {α β ε : Type} (a : α) (f : α → β) :
    f <$> (Except.ok a : Except ε α) = Except.ok (f a) := rfl

theorem except_pure {α ε : Type} (a : α) :
    (pure a : Except ε α) = Except.ok a := rfl

theorem transformCalls_append (a b : List Event) :
    transformCalls (a ++ b) = transformCalls a ++ transformCalls b :=
  List.filterMap_append ..

theorem transformCalls_nil : transformCalls [] = [] := rfl

theorem transformCalls_msg_cons (s : String) (t : List Event) :
    transformCalls (Event.msg s :: t) = transformCalls t := by
  simp [transformCalls, List.filterMap_cons]

theorem transformCalls_mkdir_cons (d : String) (t : List Event) :
    transformCalls (Event.mkdir d :: t) = transformCalls t := by
  simp [transformCalls, List.filterMap_cons]

theorem transformCalls_call_cons (p : String) (t : List Event) :
    transformCalls (Event.transformCall p :: t) = p :: transformCalls t := by
  simp [transformCalls, List.filterMap_cons]

theorem transformCalls_msgs (l : List String) :
    transformCalls (l.map Event.msg) = [] := by
  induction l with
  | nil => rfl
  | cons x xs ih => simp [transformCalls, List.filterMap_cons]

theorem transformCalls_processLoop (c : Codec)
    (input_folder output_folder : String) (size : Nat × Nat) :
    ∀ l : List String,
      transformCalls (processLoop c input_folder output_folder size l).1
        = l.map (fun f => pathJoin input_folder f) := by
  intro l
  induction l with
  | nil => rfl
  | cons f rest ih =>
      simp only [processLoop]
      rw [transformCalls_call_cons, transformCalls_append, transformCalls_msgs, ih]
      simp

theorem processLoop_success_count (c : Codec)
    (input_folder output_folder : String) (size : Nat × Nat) :
    ∀ l : List String,
      (processLoop c input_folder output_folder size l).2
        = l.countP (fun f => (process_image c (pathJoin input_folder f) output_folder size).1) := by
  intro l
  induction l with
  | nil => rfl
  | cons f rest ih =>
      simp only [processLoop, List.countP_cons, ih]
      omega

theorem batchAfterMkdir_no_files (c : Codec) (entries : List String)
    (input_folder output_folder : String) (size : Nat × Nat)
    (pre : List Event) (h : entries.filter isJpgFile = []) :
    batchAfterMkdir c entries input_folder output_folder size pre
      = (.ok (), pre ++ [.msg s!"No JPG files found in {input_folder}"]) := by
  simp [batchAfterMkdir, h]

theorem batchAfterMkdir_files (c : Codec) (entries : List String)
    (input_folder output_folder : String) (size : Nat × Nat)
    (pre : List Event) (h : entries.filter isJpgFile ≠ []) :
    batchAfterMkdir c entries input_folder output_folder size pre
      = (.ok (),
         pre ++ [.msg s!"Found {(entries.filter isJpgFile).length} JPG files to process..."]
             ++ (processLoop c input_folder output_folder size (entries.filter isJpgFile)).1
             ++ [.msg s!"Processing complete. {(processLoop c input_folder output_folder size (entries.filter isJpgFile)).2} of {(entries.filter isJpgFile).length} images converted successfully."]) := by
  simp only [batchAfterMkdir]
  rw [if_neg (by simp [List.isEmpty_iff, h])]

/-! ## Theorems about the crop geometry -/

/-- C2: for every image with positive width and height, the crop box of
`process_image` is `((width−height)/2, 0, left+height, height)` in the
landscape case and `(0, (height−width)/2, width, top+width)` otherwise;
its sides are `right−left = bottom−top = min width height`, so it is a
square of side `min width height`; and on an 800×600 input the box is
`(100, 0, 700, 600)`. -/
theorem c2_crop_box_formula (width height : Nat)
    (hw : 0 < width) (hh : 0 < height) :
    (cropBox width height =
      if width > height then
        { left := (width - height) / 2, top := 0,
          right := (width - height) / 2 + height, bottom := height }
      else
        { left := 0, top := (height - width) / 2, right := width,
          bottom := (height - width) / 2 + width }) ∧
    (cropBox width height).right - (cropBox width height).left
      = min width height ∧
    (cropBox width height).bottom - (cropBox width height).top
      = min width height ∧
    cropBox 800 600 = { left := 100, top := 0, right := 700, bottom := 600 } := by
  refine ⟨rfl, ?_, ?_, by decide⟩ <;>
    · unfold cropBox
      split <;> simp <;> omega

/-- C2 witness: the theorem instantiated at width 800, height 600. -/
theorem c2_crop_box_formula_witness :
    (0 < 800 ∧ 0 < 600) ∧
    (cropBox 800 600).right - (cropBox 800 600).left = min 800 600 := by
  exact ⟨⟨by decide, by decide⟩,
    (c2_crop_box_formula 800 600 (by decide) (by decide)).2.1⟩

/-- C3: for every square image (width = height > 0) the crop box is
`(0, 0, width, height)`, the identity crop. -/
theorem c3_square_identity_crop (w : Nat) (hw : 0 < w) :
    cropBox w w = { left := 0, top := 0, right := w, bottom := w } := by
  unfold cropBox
  simp

/-- C3 witness: the theorem instantiated at width = height = 5. -/
theorem c3_square_identity_crop_witness :
    0 < 5 ∧ cropBox 5 5 = { left := 0, top := 0, right := 5, bottom := 5 } :=
  ⟨by decide, c3_square_identity_crop 5 (by decide)⟩

/-- C9: the crop-box computation is a pure, deterministic function of
`(width, height)`: any two images with the same dimensions receive
identical boxes, and re-evaluating on the same pair yields the same box. -/
theorem c9_crop_box_deterministic (img₁ img₂ : Image)
    (hw : img₁.width = img₂.width) (hh : img₁.height = img₂.height) :
    cropBoxOf img₁ = cropBoxOf img₂ := by
  unfold cropBoxOf
  rw [hw, hh]

/-- C9 witness: two distinct image resources of equal dimensions. -/
theorem c9_crop_box_deterministic_witness :
    ({ width := 800, height := 600 } : Image).width
        = ({ width := 800, height := 600 } : Image).width ∧
    cropBoxOf { width := 800, height := 600 }
        = cropBoxOf { width := 800, height := 600 } :=
  ⟨rfl, c9_crop_box_deterministic
    { width := 800, height := 600 } { width := 800, height := 600 } rfl rfl⟩

/-- C10: for every image with positive width and height, the crop box lies
inside the image extent: `left ≤ right ≤ width` and `top ≤ bottom ≤ height`
(all coordinates are non-negative naturals), so the crop never reads
outside the image. -/
theorem c10_crop_box_in_bounds (width height : Nat)
    (hw : 0 < width) (hh : 0 < height) :
    (cropBox width height).left ≤ (cropBox width height).right ∧
    (cropBox width height).right ≤ width ∧
    (cropBox width height).top ≤ (cropBox width height).bottom ∧
    (cropBox width height).bottom ≤ height := by
  unfold cropBox
  split <;> simp <;> omega

/-- C10 witness: the theorem instantiated at width 800, height 600. -/
theorem c10_crop_box_in_bounds_witness :
    (0 < 800 ∧ 0 < 600) ∧ (cropBox 800 600).right ≤ 800 :=
  ⟨⟨by decide, by decide⟩,
    (c10_crop_box_in_bounds 800 600 (by decide) (by decide)).2.1⟩

/-! ## Theorems about the batch runner -/

/-- C1, counterexample: on an input folder with no JPEG file
(`["readme.txt"]`) and a previously non-existent output folder, the run
does create the output folder (a `mkdir` event is in the trace) before
reporting that no JPG files were found — `os.makedirs` runs before the
enumeration, so the filesystem is not left unchanged. -/
theorem c1_counterexample :
    Event.mkdir "out"
      ∈ (batch_process_images okCodec (.ok ()) false ["readme.txt"]
          "in" "out" (500, 500)).2 ∧
    Event.msg "No JPG files found in in"
      ∈ (batch_process_images okCodec (.ok ()) false ["readme.txt"]
          "in" "out" (500, 500)).2 := by
  constructor <;> decide

/-- C1 (amended): on an input folder with no matching JPEG file, the run
first creates the output folder if it did not exist (reporting the
creation), then reports that no JPG files were found and returns normally,
invoking `process_image` on no file; when the output folder already
existed, nothing is created. -/
theorem c1_no_jpg_files (c : Codec) (entries : List String)
    (input_folder output_folder : String) (size : Nat × Nat)
    (h : entries.filter isJpgFile = []) :
    batch_process_images c (.ok ()) false entries input_folder output_folder size
      = (.ok (), [.mkdir output_folder,
                  .msg s!"Created output directory: {output_folder}",
                  .msg s!"No JPG files found in {input_folder}"]) ∧
    (∀ mk : Except String Unit,
      batch_process_images c mk true entries input_folder output_folder size
        = (.ok (), [.msg s!"No JPG files found in {input_folder}"])) ∧
    transformCalls
      (batch_process_images c (.ok ()) false entries input_folder output_folder size).2
      = [] := by
  refine ⟨?_, fun mk => ?_, ?_⟩ <;>
    simp [batch_process_images, batchAfterMkdir, h, transformCalls]

/-- C1 witness: the amended statement at a concrete folder with one
non-JPEG entry. -/
theorem c1_no_jpg_files_witness :
    (["readme.txt"].filter isJpgFile = []) ∧
    batch_process_images okCodec (.ok ()) false ["readme.txt"] "in" "out" (500, 500)
      = (.ok (), [.mkdir "out",
                  .msg "Created output directory: out",
                  .msg "No JPG files found in in"]) :=
  ⟨by decide,
   (c1_no_jpg_files okCodec ["readme.txt"] "in" "out" (500, 500) (by decide)).1⟩

/-- C6: any error raised inside the open/crop/resize/save chain is caught
by `process_image`, which prints a line naming the file and returns
`false`; and — with directory creation succeeding — the batch passes every
matched file to `process_image`, in order, whatever the codec does, so one
file's failure never skips or stops the processing of subsequent files. -/
theorem c6_error_isolation :
    (∀ (c : Codec) (input_path output_folder : String)
        (size : Nat × Nat) (e : String),
      processAttempt c input_path output_folder size = .error e →
      process_image c input_path output_folder size
        = (false, [s!"Error processing {input_path}: {e}"])) ∧
    (∀ (c : Codec) (output_exists : Bool) (entries : List String)
        (input_folder output_folder : String) (size : Nat × Nat),
      transformCalls
        (batch_process_images c (.ok ()) output_exists entries
          input_folder output_folder size).2
        = (entries.filter isJpgFile).map (fun f => pathJoin input_folder f)) := by
  constructor
  · intro c input_path output_folder size e he
    simp [process_image, he]
  · intro c output_exists entries input_folder output_folder size
    have key : ∀ pre : List Event, transformCalls pre = [] →
        transformCalls
            (batchAfterMkdir c entries input_folder output_folder size pre).2
          = (entries.filter isJpgFile).map (fun f => pathJoin input_folder f) := by
      intro pre hpre
      by_cases hemp : entries.filter isJpgFile = []
      · rw [batchAfterMkdir_no_files c entries input_folder output_folder size pre hemp]
        simp [transformCalls_append, hpre, transformCalls_msg_cons,
          transformCalls_nil, hemp]
      · rw [batchAfterMkdir_files c entries input_folder output_folder size pre hemp]
        simp only [transformCalls_append, hpre, transformCalls_msg_cons,
          transformCalls_nil, transformCalls_processLoop]
        simp
    cases output_exists
    · exact key [.mkdir output_folder,
        .msg s!"Created output directory: {output_folder}"] rfl
    · exact key [] rfl

/-- C6 witness: a codec whose `open` raises on a corrupt file; the error is
caught and reported, success is `false`. -/
theorem c6_error_isolation_witness :
    processAttempt failCodec "in/bad.jpg" "out" (500, 500)
      = .error "cannot identify image file" ∧
    process_image failCodec "in/bad.jpg" "out" (500, 500)
      = (false, ["Error processing in/bad.jpg: cannot identify image file"]) :=
  ⟨rfl,
   c6_error_isolation.1 failCodec "in/bad.jpg" "out" (500, 500)
     "cannot identify image file" rfl⟩

/-- C7: on a non-empty list of matched files, the last line the batch
prints is the summary "`successful` of `total` images converted
successfully." where `total` is the number of matched files and
`successful` counts exactly the `process_image` invocations that returned
`true`; and `successful ≤ total`. -/
theorem c7_summary_count (c : Codec) (output_exists : Bool)
    (entries : List String) (input_folder output_folder : String)
    (size : Nat × Nat)
    (hne : entries.filter isJpgFile ≠ []) :
    (batch_process_images c (.ok ()) output_exists entries
        input_folder output_folder size).2.getLast?
      = some (.msg s!"Processing complete. {(entries.filter isJpgFile).countP (fun f => (process_image c (pathJoin input_folder f) output_folder size).1)} of {(entries.filter isJpgFile).length} images converted successfully.") ∧
    (entries.filter isJpgFile).countP
        (fun f => (process_image c (pathJoin input_folder f) output_folder size).1)
      ≤ (entries.filter isJpgFile).length := by
  refine ⟨?_, List.countP_le_length _⟩
  have hlast : ∀ pre : List Event,
      (batchAfterMkdir c entries input_folder output_folder size pre).2.getLast?
        = some (.msg s!"Processing complete. {(entries.filter isJpgFile).countP (fun f => (process_image c (pathJoin input_folder f) output_folder size).1)} of {(entries.filter isJpgFile).length} images converted successfully.") := by
    intro pre
    rw [batchAfterMkdir_files c entries input_folder output_folder size pre hne,
      processLoop_success_count]
    exact List.getLast?_concat _
  cases output_exists
  · exact hlast [.mkdir output_folder,
      .msg s!"Created output directory: {output_folder}"]
  · exact hlast []

/-- C7 witness: three readable JPEGs plus the corrupt `bad.jpg` (and one
non-JPEG entry that is not counted) report "3 of 4". -/
theorem c7_summary_count_witness :
    (["a.jpg", "b.jpg", "c.jpg", "bad.jpg", "notes.txt"].filter isJpgFile ≠ []) ∧
    (batch_process_images mixedCodec (.ok ()) true
        ["a.jpg", "b.jpg", "c.jpg", "bad.jpg", "notes.txt"]
        "in" "out" (500, 500)).2.getLast?
      = some (.msg "Processing complete. 3 of 4 images converted successfully.") := by
  have h := c7_summary_count mixedCodec true
    ["a.jpg", "b.jpg", "c.jpg", "bad.jpg", "notes.txt"] "in" "out" (500, 500)
    (by decide)
  exact ⟨by decide, h.1⟩

/-- C8: if `os.makedirs` on a non-existent output folder raises, the error
is not caught: `batch_process_images` propagates it, nothing beyond the
directory-creation attempt is in the trace, and `process_image` is invoked
zero times in that run. -/
theorem c8_mkdir_failure_propagates (c : Codec) (entries : List String)
    (input_folder output_folder : String) (size : Nat × Nat) (e : String) :
    (batch_process_images c (.error e) false entries
        input_folder output_folder size).1 = Except.error e ∧
    (batch_process_images c (.error e) false entries
        input_folder output_folder size).2 = [Event.mkdir output_folder] ∧
    transformCalls
      (batch_process_images c (.error e) false entries
        input_folder output_folder size).2 = [] := by
  refine ⟨rfl, rfl, rfl⟩

/-! ## Theorems about file selection and naming -/

/-- C4: a directory entry is selected for processing exactly when its name
ends, under case-sensitive comparison, with one of the four suffixes
`.jpg`, `.jpeg`, `.JPG`, `.JPEG`; in particular `.Jpg` (and every case
mixture outside these four) is not selected while each of the four is. -/
theorem c4_extension_selection (name : String) :
    (isJpgFile name = true ↔
      ∃ ext ∈ jpg_extensions, ∃ pre : List Char, pre ++ ext.toList = name.toList) ∧
    isJpgFile "photo.Jpg" = false ∧
    isJpgFile "photo.jpg" = true ∧ isJpgFile "photo.jpeg" = true ∧
    isJpgFile "photo.JPG" = true ∧ isJpgFile "photo.JPEG" = true := by
  refine ⟨?_, by decide, by decide, by decide, by decide, by decide⟩
  simp only [isJpgFile, jpg_extensions, pyEndsWith, List.any_eq_true,
    List.isSuffixOf_iff_suffix, List.mem_cons, List.not_mem_nil, or_false]
  constructor
  · rintro ⟨ext, hmem, hsuf⟩
    exact ⟨ext, hmem, hsuf⟩
  · rintro ⟨ext, hmem, hsuf⟩
    exact ⟨ext, hmem, hsuf⟩

/-! ### Helper lemmas about `rfind`, `allDots` and `splitext` -/

theorem rfindAux_not_mem (c : Char) (p : List Char) (i : Nat) (acc : Int)
    (h : c ∉ p) : rfindAux c p i acc = acc := by
  induction p generalizing i acc with
  | nil => rfl
  | cons x xs ih =>
      have hx : ¬x = c := fun hxc => h (hxc ▸ List.mem_cons_self x xs)
      have hxs : c ∉ xs := fun hm => h (List.mem_cons_of_mem x hm)
      simp only [rfindAux, if_neg hx]
      exact ih _ _ hxs

theorem rfindAux_append (c : Char) (l r : List Char) :
    ∀ (i : Nat) (acc : Int),
      rfindAux c (l ++ r) i acc = rfindAux c r (i + l.length) (rfindAux c l i acc) := by
  induction l with
  | nil => intro i acc; simp [rfindAux]
  | cons x xs ih =>
      intro i acc
      simp only [List.cons_append, rfindAux, List.length_cons]
      rw [show i + (xs.length + 1) = i + 1 + xs.length from by omega]
      exact ih (i + 1) _

theorem rfind_not_mem (p : List Char) (c : Char) (h : c ∉ p) :
    rfind p c = -1 :=
  rfindAux_not_mem c p 0 (-1) h

theorem rfind_last_dot (stem ext : List Char) (h : '.' ∉ ext) :
    rfind (stem ++ '.' :: ext) '.' = (stem.length : Int) := by
  unfold rfind
  rw [rfindAux_append]
  simp only [rfindAux, if_pos rfl]
  rw [rfindAux_not_mem _ _ _ _ h]
  simp

theorem allDots_false (l : List Char) (c : Char) (hc : c ∈ l) (hne : c ≠ '.') :
    allDots l = false := by
  induction l with
  | nil => exact absurd hc (List.not_mem_nil c)
  | cons x xs ih =>
      rcases List.mem_cons.1 hc with hx | hxs
      · simp [allDots, hx ▸ hne]
      · simp [allDots, ih hxs]

theorem splitextCL_recombine (p : List Char) :
    (splitextCL p).1 ++ (splitextCL p).2 = p := by
  simp only [splitextCL]
  split
  · split
    · simp
    · exact List.take_append_drop _ p
  · simp

theorem splitextCL_stem_ext (stem ext : List Char)
    (hs : '/' ∉ stem) (he : '/' ∉ ext) (hd : '.' ∉ ext)
    (hnd : ∃ c ∈ stem, c ≠ '.') :
    splitextCL (stem ++ '.' :: ext) = (stem, '.' :: ext) := by
  have hsep : rfind (stem ++ '.' :: ext) '/' = -1 := by
    refine rfind_not_mem _ _ ?_
    intro hm
    rcases List.mem_append.1 hm with h | h
    · exact hs h
    · rcases List.mem_cons.1 h with h | h
      · exact absurd h (by decide)
      · exact he h
  have hdot : rfind (stem ++ '.' :: ext) '.' = (stem.length : Int) :=
    rfind_last_dot stem ext hd
  simp only [splitextCL]
  rw [hsep, hdot, if_pos (show (-1 : Int) < (stem.length : Int) from by omega)]
  rw [show ((stem.length : Int)).toNat = stem.length from Int.toNat_ofNat _]
  rw [show ((-1 : Int) + 1).toNat = 0 from rfl]
  rw [List.drop_zero, List.take_left stem, List.drop_left stem]
  obtain ⟨c, hc, hcne⟩ := hnd
  rw [if_neg (by simp [allDots_false stem c hc hcne])]

/-- C5: the output filename of `process_image` is the input's base name
with its extension (as split off by `splitext`) removed and the lowercase
`.png` appended; the split is lossless (stem ++ extension = base name);
for any filename of the shape `stem.ext` — no separator, an extension free
of dots, a stem containing a non-dot character — the output is exactly
`stem.png`; the saved path joins this filename into the output folder;
`photo.JPEG` yields `photo.png`. -/
theorem c5_output_naming :
    (∀ input_path : String,
      output_filename input_path = (splitext (basename input_path)).1 ++ ".png") ∧
    (∀ input_path : String,
      (splitext (basename input_path)).1 ++ (splitext (basename input_path)).2
        = basename input_path) ∧
    (∀ stem ext : String, '/' ∉ stem.toList → '/' ∉ ext.toList →
      '.' ∉ ext.toList → (∃ c ∈ stem.toList, c ≠ '.') →
      output_filename (stem ++ "." ++ ext) = stem ++ ".png") ∧
    (∀ (c : Codec) (input_path output_folder : String) (size : Nat × Nat)
        (r : String × String),
      processAttempt c input_path output_folder size = .ok r →
      r.2 = output_filename input_path) ∧
    output_filename "photo.JPEG" = "photo.png" ∧
    output_filename "dir/photo.jpg" = "photo.png" := by
  refine ⟨fun _ => rfl, ?_, ?_, ?_, by decide, by decide⟩
  · intro p
    show String.mk (splitextCL (basenameCL p.toList)).1
        ++ String.mk (splitextCL (basenameCL p.toList)).2 = _
    rw [show ∀ a b : List Char, String.mk a ++ String.mk b = String.mk (a ++ b)
      from fun _ _ => rfl]
    rw [splitextCL_recombine]
    rfl
  · intro stem ext hs he hd hnd
    have hlist : (stem ++ "." ++ ext).toList = stem.toList ++ '.' :: ext.toList := by
      show (stem ++ "." ++ ext).data = stem.data ++ '.' :: ext.data
      rw [String.data_append, String.data_append, List.append_assoc]
      rfl
    have hnosep : '/' ∉ (stem ++ "." ++ ext).toList := by
      rw [hlist]
      intro hm
      rcases List.mem_append.1 hm with h | h
      · exact hs h
      · rcases List.mem_cons.1 h with h | h
        · exact absurd h (by decide)
        · exact he h
    have hbase : basenameCL (stem ++ "." ++ ext).toList
        = stem.toList ++ '.' :: ext.toList := by
      unfold basenameCL
      rw [rfind_not_mem _ _ hnosep]
      simp [hlist]
    show String.mk (splitextCL (basenameCL (stem ++ "." ++ ext).toList)).1
        ++ ".png" = _
    rw [hbase, splitextCL_stem_ext stem.toList ext.toList hs he hd hnd]
    show String.mk stem.data ++ ".png" = stem ++ ".png"
    rfl
  · intro c input_path output_folder size r h
    unfold processAttempt at h
    cases h1 : c.openImage input_path with
    | error e =>
        simp only [h1, except_bind_error] at h
        exact Except.noConfusion h
    | ok img =>
        simp only [h1, except_bind_ok] at h
        cases h2 : c.crop img (cropBox img.width img.height) with
        | error e =>
            simp only [h2, except_bind_error] at h
            exact Except.noConfusion h
        | ok img2 =>
            simp only [h2, except_bind_ok] at h
            cases h3 : c.resize img2 size with
            | error e =>
                simp only [h3, except_bind_error] at h
                exact Except.noConfusion h
            | ok img3 =>
                simp only [h3, except_bind_ok] at h
                cases h4 : c.save img3
                    (pathJoin output_folder
                      ((splitext (basename input_path)).1 ++ ".png")) with
                | error e =>
                    simp only [h4, Except.map_error] at h
                    exact Except.noConfusion h
                | ok u =>
                    simp only [h4, except_bind_ok, except_pure,
                      Except.ok.injEq] at h
                    rw [← h]
                    rfl

/-- C5 witness: the stem/extension clause applied to `photo` and `JPEG`. -/
theorem c5_output_naming_witness :
    ('/' ∉ "photo".toList ∧ '/' ∉ "JPEG".toList ∧ '.' ∉ "JPEG".toList ∧
      (∃ c ∈ "photo".toList, c ≠ '.')) ∧
    output_filename ("photo" ++ "." ++ "JPEG") = "photo" ++ ".png" :=
  ⟨⟨by decide, by decide, by decide, by decide⟩,
   c5_output_naming.2.2.1 "photo" "JPEG"
     (by decide) (by decide) (by decide) (by decide)⟩

end BulkImageFormatter
